import Mathlib

/-!
Verification of the Media Source & Thumbnail Cache Engine of the
Local_Media_Viewer server (`src/server.js`, the FTP-enabled variant).

Shallow embedding conventions:
* Byte buffers (Node `Buffer`) are `List Nat`.
* The on-disk thumbnail cache directory is an association list
  `List (String × List Nat)` from filename to file content; `fs.writeFile`
  overwrites an entry of the same name.
* JavaScript strings are Lean `String`s; `String.prototype.startsWith` is
  modelled as `List.isPrefixOf` on the character data, `toLowerCase` as a
  character-wise map, and template interpolation of a number is `Nat.repr`.
* The platform `path` module is modelled with an explicit separator
  character `sep` (`path.sep`): `path.join` inserts `sep`, and
  `path.relative(base, full)` for `full` strictly below `base` drops
  `base` plus one separator.  `path.posix` fixes the separator to `/`.
* External effects (the filesystem, `sharp`, the FTP client, `crypto.md5`,
  `new Date()` and `new URL`) are fields of an `Env` record; fallible
  calls return `Option`, `none` meaning the call throws.  Responses carry
  `fetchInvoked` / `sharpInvoked` flags recording whether the raw-bytes
  provider (local read or FTP download) and the raster re-encoder were
  actually invoked during the request.
* `path.extname` is modelled POSIX-style: the substring of the basename
  from its last dot, empty when there is no dot or the only dot is the
  leading character.
-/

/-! ### Decimal printing of naturals (used by cache filenames and headers) -/

/-- Decimal digit list of a natural number, most significant first.
Mirrors the digit chain produced by core `Nat.toDigitsCore` at base 10. -/
def natDigits (n : Nat) : List Char :=
  if h : n / 10 = 0 then [Nat.digitChar (n % 10)]
  else natDigits (n / 10) ++ [Nat.digitChar (n % 10)]
decreasing_by omega

/-- Numeric value of a decimal digit string (inverse of `natDigits`). -/
def digitsVal (l : List Char) : Nat :=
  l.foldl (fun a c => 10 * a + (c.toNat - 48)) 0

/-! ### String helpers modelling the JavaScript string/path primitives -/

/-- Model of JavaScript `s.startsWith(pre)`. -/
def strStartsWith (s pre : String) : Bool :=
  pre.data.isPrefixOf s.data

/-- Model of JavaScript `s.toLowerCase()` (character-wise lowering). -/
def strToLower (s : String) : String :=
  String.mk (s.data.map Char.toLower)

/-- Characters of `l` after its last occurrence of `sep`
(the whole list when `sep` does not occur). -/
def afterLastChar (sep : Char) (l : List Char) : List Char :=
  (l.reverse.takeWhile (fun c => c != sep)).reverse

/-- Model of `path.extname` (POSIX flavour): the extension of the last
path component from its final dot, `""` when the component has no dot or
its only dot is the leading character. -/
def extname (p : String) : String :=
  let b := afterLastChar '/' p.data
  if b.contains '.' then
    let tail := afterLastChar '.' b
    if b.length = tail.length + 1 then ""
    else String.mk ('.' :: tail)
  else ""

/-- Model of `path.join(d, n)` under platform separator `sep`
(for a directory path `d` without trailing separator). -/
def joinPath (sep : Char) (d n : String) : String :=
  String.mk (d.data ++ sep :: n.data)

/-- Model of `path.relative(base, full)` under the platform separator,
for `full` strictly below `base`: drop `base` and one separator. -/
def pathRelative (base full : String) : String :=
  String.mk (full.data.drop (base.data.length + 1))

/-- Model of `path.posix.join(d, n)` for an absolute directory `d`. -/
def posixJoin (d n : String) : String :=
  if d == "/" then d ++ n else d ++ "/" ++ n

/-- Model of `path.posix.relative(base, full)` for `full` strictly below
`base` (the FTP scan is always rooted at `basePath = "/"`). -/
def posixRelative (base full : String) : String :=
  if base == "/" then String.mk (full.data.drop 1) else pathRelative base full

/-- Source `isFtpPath` (server.js:367): scheme test on the identifier. -/
def isFtpPath (p : String) : Bool :=
  strStartsWith p "ftp://" || strStartsWith p "ftps://"

/-! ### Media classifier (server.js:314-318, 372-386, 789-815) -/

/-- Source `MEDIA_EXTENSIONS` table, in its JavaScript insertion order. -/
def MEDIA_EXTENSIONS : List (String × List String) :=
  [("video", [".mp4", ".webm", ".ogg", ".mov", ".avi", ".mkv", ".m4v", ".flv", ".wmv"]),
   ("image", [".jpg", ".jpeg", ".png", ".gif", ".bmp", ".webp", ".svg"]),
   ("audio", [".mp3", ".wav", ".ogg", ".m4a", ".flac", ".aac"])]

/-- Source `isMediaFile`: lowercase extension occurs in the flattened table. -/
def isMediaFile (filename : String) : Bool :=
  ((MEDIA_EXTENSIONS.map Prod.snd).flatten).contains (strToLower (extname filename))

/-- Source `getMediaType`: first table row whose extension list contains the
lowercase extension, in insertion order; `"unknown"` otherwise. -/
def getMediaType (filename : String) : String :=
  match MEDIA_EXTENSIONS.find? (fun p => p.snd.contains (strToLower (extname filename))) with
  | some p => p.fst
  | none => "unknown"

/-- Source `contentTypes` table inside `getContentType`. -/
def contentTypes : List (String × String) :=
  [(".mp4", "video/mp4"), (".webm", "video/webm"), (".ogg", "video/ogg"),
   (".mov", "video/quicktime"), (".avi", "video/x-msvideo"), (".mkv", "video/x-matroska"),
   (".m4v", "video/mp4"), (".flv", "video/x-flv"), (".wmv", "video/x-ms-wmv"),
   (".mp3", "audio/mpeg"), (".wav", "audio/wav"), (".m4a", "audio/mp4"),
   (".flac", "audio/flac"), (".aac", "audio/aac"), (".jpg", "image/jpeg"),
   (".jpeg", "image/jpeg"), (".png", "image/png"), (".gif", "image/gif"),
   (".bmp", "image/bmp"), (".webp", "image/webp"), (".svg", "image/svg+xml")]

/-- Source `getContentType`: table lookup on the lowercase extension with
`application/octet-stream` fallback. -/
def getContentType (filePath : String) : String :=
  match contentTypes.find? (fun p => p.fst == strToLower (extname filePath)) with
  | some p => p.snd
  | none => "application/octet-stream"

/-! ### Byte-range serving of a local file (server.js:528-561) -/

/-- Response produced by the `/api/media/*` route for a local file. -/
structure MediaResp where
  status : Nat
  headers : List (String × String)
  body : List Nat
deriving DecidableEq, Repr

/-- Local branch of the `/api/media/*` handler.  `range` is the parsed
`Range` header: `none` for a whole-file request, `some (start, endOpt)`
for `bytes=start-` / `bytes=start-end`.  `createReadStream {start, end}`
streams the bytes `start..end` inclusive. -/
def serveLocalMedia (filePath : String) (content : List Nat)
    (range : Option (Nat × Option Nat)) : MediaResp :=
  let fileSize := content.length
  match range with
  | some (start, endOpt) =>
    let endPos := match endOpt with
      | some e => e
      | none => fileSize - 1
    let chunksize := endPos - start + 1
    { status := 206,
      headers :=
        [("Content-Range",
           "bytes " ++ Nat.repr start ++ "-" ++ Nat.repr endPos ++ "/" ++ Nat.repr fileSize),
         ("Accept-Ranges", "bytes"),
         ("Content-Length", Nat.repr chunksize),
         ("Content-Type", getContentType filePath)],
      body := (content.drop start).take chunksize }
  | none =>
    { status := 200,
      headers := [("Content-Length", Nat.repr fileSize),
                  ("Content-Type", getContentType filePath)],
      body := content }

/-! ### Thumbnail cache store (server.js:249-304) -/

/-- The thumbnail cache directory: filenames mapped to file contents. -/
abbrev CacheDir := List (String × List Nat)

/-- Lookup of one cache file by name (`existsSync` plus `fs.readFile`). -/
def findFile (dir : CacheDir) (name : String) : Option (List Nat) :=
  (dir.find? (fun p => p.fst == name)).map Prod.snd

/-- Model of `fs.writeFile` in the cache directory: an entry with the same
name is overwritten, otherwise the file is created. -/
def writeFileEntry (dir : CacheDir) (name : String) (content : List Nat) : CacheDir :=
  dir.filter (fun p => !(p.fst == name)) ++ [(name, content)]

/-- Source `getCacheFilename` (server.js:261-265): `hash_timestamp.jpg`,
with `crypto.md5` abstracted as the function argument `md5`. -/
def getCacheFilename (md5 : String → String) (filePath : String) (modifiedTime : Nat) : String :=
  md5 filePath ++ "_" ++ Nat.repr modifiedTime ++ ".jpg"

/-- Source `getCachedThumbnail` (server.js:268-282): read the cache file
with the deterministic name, `none` when it does not exist. -/
def getCachedThumbnail (md5 : String → String) (filePath : String) (modifiedTime : Nat)
    (dir : CacheDir) : Option (List Nat) :=
  findFile dir (getCacheFilename md5 filePath modifiedTime)

/-- Source `saveThumbnailToCache` (server.js:285-304): unlink every file
whose name starts with `hash + "_"` other than the new cache filename,
then write the new thumbnail under the deterministic name. -/
def saveThumbnailToCache (md5 : String → String) (filePath : String) (modifiedTime : Nat)
    (thumbnailBuffer : List Nat) (dir : CacheDir) : CacheDir :=
  let cacheFilename := getCacheFilename md5 filePath modifiedTime
  let hash := md5 filePath
  let cleaned := dir.filter
    (fun p => !(strStartsWith p.fst (hash ++ "_") && !(p.fst == cacheFilename)))
  writeFileEntry cleaned cacheFilename thumbnailBuffer

/-! ### Environment of external effects -/

/-- Parsed FTP configuration (source `parseFtpPath`, server.js:350-364). -/
structure FtpConfig where
  host : String
  port : Nat
  user : String
  password : String
  secure : Bool
  path : String
deriving DecidableEq, Repr

/-- External collaborators of the engine.  `md5` is `crypto`'s hex digest,
`existsSync`/`statMtime`/`readFile` the local filesystem, `sharp` the
raster resize-and-encode pipeline (200x150 cover, jpeg quality 60),
`parseFtpPath` the URL parser, `ftpDownload` the pooled FTP download of a
remote path, and `now` the clock value `new Date()` returns. -/
structure Env where
  md5 : String → String
  existsSync : String → Bool
  statMtime : String → Nat
  readFile : String → Option (List Nat)
  sharp : List Nat → Option (List Nat)
  parseFtpPath : String → Option FtpConfig
  ftpDownload : String → Option (List Nat)
  now : Nat

/-! ### Single-image thumbnail route (server.js:570-651) -/

/-- Response of the `/api/thumbnail/image/*` route, with instrumentation
flags for the raw-bytes provider and the `sharp` re-encode. -/
structure ThumbResp where
  status : Nat
  contentType : String
  body : List Nat
  fetchInvoked : Bool
  sharpInvoked : Bool
deriving DecidableEq, Repr

/-- Tail of the thumbnail route after the raw bytes have been fetched
(server.js:621-646): svg and gif are passed through verbatim, other
formats are re-encoded by `sharp` and saved to the cache. -/
def thumbAfterFetch (env : Env) (filePath ext : String) (modifiedTime : Nat)
    (st : CacheDir) (imageBuffer : List Nat) : ThumbResp × CacheDir :=
  if ext == ".svg" then
    ({ status := 200, contentType := "image/svg+xml", body := imageBuffer,
       fetchInvoked := true, sharpInvoked := false }, st)
  else if ext == ".gif" then
    ({ status := 200, contentType := "image/gif", body := imageBuffer,
       fetchInvoked := true, sharpInvoked := false }, st)
  else
    match env.sharp imageBuffer with
    | none =>
      ({ status := 500, contentType := "application/json", body := [],
         fetchInvoked := true, sharpInvoked := true }, st)
    | some thumbnail =>
      ({ status := 200, contentType := "image/jpeg", body := thumbnail,
         fetchInvoked := true, sharpInvoked := true },
       saveThumbnailToCache env.md5 filePath modifiedTime thumbnail st)

/-- Body of the thumbnail route once the modification time is known
(server.js:589-646): cache probe (skipped for svg/gif), then fetch from
FTP or the local filesystem, then `thumbAfterFetch`. -/
def thumbCore (env : Env) (filePath ext : String) (modifiedTime : Nat) (ftp : Bool)
    (st : CacheDir) : ThumbResp × CacheDir :=
  let cached := if !(ext == ".svg") && !(ext == ".gif")
    then getCachedThumbnail env.md5 filePath modifiedTime st
    else none
  match cached with
  | some buf =>
    ({ status := 200, contentType := "image/jpeg", body := buf,
       fetchInvoked := false, sharpInvoked := false }, st)
  | none =>
    if ftp then
      match env.parseFtpPath filePath with
      | none =>
        ({ status := 400, contentType := "application/json", body := [],
           fetchInvoked := false, sharpInvoked := false }, st)
      | some cfg =>
        match env.ftpDownload cfg.path with
        | none =>
          ({ status := 500, contentType := "application/json", body := [],
             fetchInvoked := true, sharpInvoked := false }, st)
        | some imageBuffer => thumbAfterFetch env filePath ext modifiedTime st imageBuffer
    else
      match env.readFile filePath with
      | none =>
        ({ status := 500, contentType := "application/json", body := [],
           fetchInvoked := true, sharpInvoked := false }, st)
      | some imageBuffer => thumbAfterFetch env filePath ext modifiedTime st imageBuffer

/-- The `/api/thumbnail/image/*` route (server.js:570-651).  For an FTP
identifier the modification time is the current clock (`new Date()`); for
a local identifier it is the file's mtime, after an existence check. -/
def thumbnailImageHandler (env : Env) (filePath : String) (st : CacheDir) :
    ThumbResp × CacheDir :=
  let ext := strToLower (extname filePath)
  if isFtpPath filePath then
    thumbCore env filePath ext env.now true st
  else if env.existsSync filePath then
    thumbCore env filePath ext (env.statMtime filePath) false st
  else
    ({ status := 404, contentType := "application/json", body := [],
       fetchInvoked := false, sharpInvoked := false }, st)

/-! ### FTP connection pool (server.js:246, 321-347) -/

/-- An FTP client session; `closed` is the liveness flag the session
itself reports (`connection.closed`), `id` distinguishes sessions. -/
structure FtpSession where
  id : Nat
  closed : Bool
deriving DecidableEq, Repr

/-- State of the process-wide pool: the `ftpConnections` map keyed by
`host:port:user`, a fresh-id counter, and the number of network
connect/authenticate round trips performed so far. -/
structure PoolState where
  connections : List (String × FtpSession)
  nextId : Nat
  accessCount : Nat
deriving DecidableEq, Repr

/-- Source key expression `host:port:user` (server.js:322). -/
def connKey (cfg : FtpConfig) : String :=
  cfg.host ++ ":" ++ Nat.repr cfg.port ++ ":" ++ cfg.user

/-- Model of `ftpConnections.get(key)`. -/
def poolLookup (t : List (String × FtpSession)) (key : String) : Option FtpSession :=
  (t.find? (fun p => p.fst == key)).map Prod.snd

/-- Model of `ftpConnections.set(key, client)` (replaces the old entry). -/
def poolSet (t : List (String × FtpSession)) (key : String) (s : FtpSession) :
    List (String × FtpSession) :=
  t.filter (fun p => !(p.fst == key)) ++ [(key, s)]

/-- Opening a new session (`new FtpClient()` plus `client.access`): a
network round trip, which throws when `accessOk` is false, and on success
stores the fresh session under the key. -/
def openNewFtpConnection (accessOk : Bool) (key : String) (st : PoolState) :
    Option FtpSession × PoolState :=
  if accessOk then
    let client : FtpSession := { id := st.nextId, closed := false }
    (some client,
     { connections := poolSet st.connections key client,
       nextId := st.nextId + 1,
       accessCount := st.accessCount + 1 })
  else
    (none, { st with accessCount := st.accessCount + 1 })

/-- Source `getFtpConnection` (server.js:321-347): return the cached
session when present and not closed, otherwise connect anew. -/
def getFtpConnection (accessOk : Bool) (cfg : FtpConfig) (st : PoolState) :
    Option FtpSession × PoolState :=
  let key := connKey cfg
  match poolLookup st.connections key with
  | some connection =>
    if connection.closed then openNewFtpConnection accessOk key st
    else (some connection, st)
  | none => openNewFtpConnection accessOk key st

/-! ### Recursive directory scan (server.js:389-464) -/

/-- A directory tree: files carry size and mtime; a directory whose
`readable` flag is false makes `fs.readdir` / `client.list` throw. -/
inductive FsTree where
  | file (name : String) (size : Nat) (mtime : Nat)
  | dir (name : String) (readable : Bool) (entries : List FsTree)

/-- A scan result record (server.js:404-412 and 440-449). -/
structure MediaRecord where
  name : String
  path : String
  relativePath : String
  size : Nat
  modified : Nat
  type : String
  source : String
deriving DecidableEq, Repr

mutual

/-- Source `getMediaFilesRecursive` (server.js:389-420) on the directory
tree rooted at `dirPath`.  An unreadable directory makes `fs.readdir`
throw; the catch at this scope returns the empty record list. -/
def getMediaFilesRecursive (sep : Char) (baseDir dirPath : String) :
    FsTree → List MediaRecord
  | .file _ _ _ => []
  | .dir _ false _ => []
  | .dir _ true entries => scanEntriesLocal sep baseDir dirPath entries

/-- The entry loop of `getMediaFilesRecursive` (server.js:395-414). -/
def scanEntriesLocal (sep : Char) (baseDir dirPath : String) :
    List FsTree → List MediaRecord
  | [] => []
  | FsTree.file n sz mt :: rest =>
    (if isMediaFile n then
      [{ name := n, path := joinPath sep dirPath n,
         relativePath := pathRelative baseDir (joinPath sep dirPath n),
         size := sz, modified := mt, type := getMediaType n, source := "local" }]
     else []) ++ scanEntriesLocal sep baseDir dirPath rest
  | FsTree.dir n rd es :: rest =>
    getMediaFilesRecursive sep baseDir (joinPath sep dirPath n) (FsTree.dir n rd es)
      ++ scanEntriesLocal sep baseDir dirPath rest

end

/-- The `ftp://user@host:port` + remote path identifier stored in FTP scan
records (server.js:442). -/
def ftpFilePath (cfg : FtpConfig) (itemPath : String) : String :=
  "ftp://" ++ cfg.user ++ "@" ++ cfg.host ++ ":" ++ Nat.repr cfg.port ++ itemPath

mutual

/-- Source `scanDirectory` inside `getMediaFilesFromFtp`
(server.js:429-455): remote recursive listing with POSIX paths; a listing
error is caught at the scope of the directory being listed. -/
def scanDirectoryFtp (cfg : FtpConfig) (basePath dirPath : String) :
    FsTree → List MediaRecord
  | .file _ _ _ => []
  | .dir _ false _ => []
  | .dir _ true items => scanItemsFtp cfg basePath dirPath items

/-- The item loop of `scanDirectory` (server.js:433-451). -/
def scanItemsFtp (cfg : FtpConfig) (basePath dirPath : String) :
    List FsTree → List MediaRecord
  | [] => []
  | FsTree.file n sz mt :: rest =>
    (if isMediaFile n then
      [{ name := n, path := ftpFilePath cfg (posixJoin dirPath n),
         relativePath := posixRelative basePath (posixJoin dirPath n),
         size := sz, modified := mt, type := getMediaType n, source := "ftp" }]
     else []) ++ scanItemsFtp cfg basePath dirPath rest
  | FsTree.dir n rd es :: rest =>
    scanDirectoryFtp cfg basePath (posixJoin dirPath n) (FsTree.dir n rd es)
      ++ scanItemsFtp cfg basePath dirPath rest

end

mutual

/-- Specification-side enumeration of every file reachable through
readable directories below `dirPath`: `(fullPath, name, size, mtime)`. -/
def filesUnder (sep : Char) (dirPath : String) :
    FsTree → List (String × String × Nat × Nat)
  | .file _ _ _ => []
  | .dir _ false _ => []
  | .dir _ true entries => filesUnderList sep dirPath entries

/-- List version of `filesUnder`. -/
def filesUnderList (sep : Char) (dirPath : String) :
    List FsTree → List (String × String × Nat × Nat)
  | [] => []
  | FsTree.file n sz mt :: rest =>
    (joinPath sep dirPath n, n, sz, mt) :: filesUnderList sep dirPath rest
  | FsTree.dir n rd es :: rest =>
    filesUnder sep (joinPath sep dirPath n) (FsTree.dir n rd es)
      ++ filesUnderList sep dirPath rest

end

/-- Join path components with the platform separator. -/
def relJoin (sep : Char) : List String → String
  | [] => ""
  | [c] => c
  | c :: cs => String.mk (c.data ++ sep :: (relJoin sep cs).data)

/-- The record the scan builds for a media file found at `fullPath`. -/
def mkLocalRecord (baseDir : String) (x : String × String × Nat × Nat) : MediaRecord :=
  { name := x.snd.fst, path := x.fst,
    relativePath := pathRelative baseDir x.fst,
    size := x.snd.snd.fst, modified := x.snd.snd.snd,
    type := getMediaType x.snd.fst, source := "local" }

/-! ### Bulk thumbnail job (server.js:668-786) -/

/-- One input record of `/api/generate-thumbnails` (the fields the route
reads from each MediaRecord-shaped object). -/
structure FileRec where
  name : String
  path : String
  type : String
  modified : Nat
deriving DecidableEq, Repr

/-- The running `results` object of the bulk job. -/
structure BulkResults where
  total : Nat
  generated : Nat
  cached : Nat
  skipped : Nat
  errors : List (String × String)
deriving DecidableEq, Repr

/-- One chunk written to the streaming response: a per-file progress
object, or the final `{complete: true, results}` summary.  The redundant
rounded percentage field of the source is omitted. -/
inductive BulkEvent where
  | progress (current total : Nat) (status : String) (file : String)
  | complete (results : BulkResults)
deriving DecidableEq, Repr

/-- Whether an event is the terminal summary event. -/
def isCompleteEvent : BulkEvent → Bool
  | .complete _ => true
  | .progress _ _ _ _ => false

/-- Raw-bytes acquisition of the bulk job for one file
(server.js:722-748), with the error message recorded on failure. -/
def bulkFetch (env : Env) (f : FileRec) : Except String (List Nat) :=
  if isFtpPath f.path then
    match env.parseFtpPath f.path with
    | none => .error "Invalid FTP path"
    | some cfg =>
      match env.ftpDownload cfg.path with
      | none => .error "FTP download failed"
      | some b => .ok b
  else if env.existsSync f.path then
    match env.readFile f.path with
    | none => .error "Read failed"
    | some b => .ok b
  else .error "File not found"

/-- One iteration of the bulk loop (server.js:687-777): skip non-images
and svg/gif, serve cache hits, otherwise fetch, re-encode and save; any
failure is recorded in `errors` and the loop continues. -/
def bulkStep (env : Env) (total i : Nat) (f : FileRec) (st : CacheDir) (r : BulkResults) :
    CacheDir × BulkResults × Option BulkEvent :=
  if !(f.type == "image") then
    (st, { r with skipped := r.skipped + 1 }, none)
  else
    let ext := strToLower (extname f.path)
    if ext == ".svg" || ext == ".gif" then
      (st, { r with skipped := r.skipped + 1 }, none)
    else
      match getCachedThumbnail env.md5 f.path f.modified st with
      | some _ =>
        (st, { r with cached := r.cached + 1 },
         some (.progress (i + 1) total "cached" f.name))
      | none =>
        match bulkFetch env f with
        | .error msg => (st, { r with errors := r.errors ++ [(f.name, msg)] }, none)
        | .ok imageBuffer =>
          match env.sharp imageBuffer with
          | none =>
            (st, { r with errors := r.errors ++ [(f.name, "Thumbnail generation failed")] },
             none)
          | some thumbnail =>
            (saveThumbnailToCache env.md5 f.path f.modified thumbnail st,
             { r with generated := r.generated + 1 },
             some (.progress (i + 1) total "generated" f.name))

/-- The bulk loop over the remaining files, from index `i`. -/
def bulkRun (env : Env) (total : Nat) :
    Nat → List FileRec → CacheDir → BulkResults → List BulkEvent × BulkResults × CacheDir
  | _, [], st, r => ([], r, st)
  | i, f :: fs, st, r =>
    let s := bulkStep env total i f st r
    let rest := bulkRun env total (i + 1) fs s.fst s.snd.fst
    (s.snd.snd.toList ++ rest.fst, rest.snd.fst, rest.snd.snd)

/-- The `/api/generate-thumbnails` route (server.js:668-786): stream
progress events over the whole list and end with the summary event. -/
def generateThumbnails (env : Env) (files : List FileRec) (st : CacheDir) :
    List BulkEvent × BulkResults × CacheDir :=
  let r0 : BulkResults :=
    { total := files.length, generated := 0, cached := 0, skipped := 0, errors := [] }
  let run := bulkRun env files.length 0 files st r0
  (run.fst ++ [BulkEvent.complete run.snd.fst], run.snd.fst, run.snd.snd)

/-! ### Concrete environments used to instantiate the theorems -/

/-- An environment where the local file exists and decoding succeeds. -/
def envLocalOk : Env :=
  { md5 := fun _ => "h", existsSync := fun _ => true, statMtime := fun _ => 7,
    readFile := fun _ => some [1, 2], sharp := fun _ => some [9],
    parseFtpPath := fun _ => none, ftpDownload := fun _ => none, now := 0 }

/-- An environment for FTP identifiers where download and decode succeed
and no local file exists. -/
def envFtpOk : Env :=
  { md5 := fun _ => "h", existsSync := fun _ => false, statMtime := fun _ => 0,
    readFile := fun _ => none, sharp := fun _ => some [9],
    parseFtpPath := fun _ => some { host := "host", port := 21, user := "u",
                                    password := "", secure := false, path := "/a.png" },
    ftpDownload := fun _ => some [1, 2], now := 0 }

/-- An environment where no local file exists and every fetch fails. -/
def envAllMissing : Env :=
  { md5 := fun _ => "h", existsSync := fun _ => false, statMtime := fun _ => 0,
    readFile := fun _ => none, sharp := fun _ => none,
    parseFtpPath := fun _ => none, ftpDownload := fun _ => none, now := 0 }

/-! ## Theorems -/

/-! ### Decimal-printing lemmas -/

theorem toDigitsCore_eq_natDigits :
    ∀ (fuel n : Nat) (ds : List Char), n < fuel →
      Nat.toDigitsCore 10 fuel n ds = natDigits n ++ ds := by
  intro fuel
  induction fuel with
  | zero => intro n ds h; omega
  | succ fuel ih =>
    intro n ds h
    rw [Nat.toDigitsCore]
    by_cases h10 : n / 10 = 0
    · rw [if_pos h10, natDigits, dif_pos h10]
      rfl
    · rw [if_neg h10, natDigits, dif_neg h10]
      rw [ih (n / 10) _ (by omega)]
      simp

theorem repr_eq_natDigits (n : Nat) : Nat.repr n = (natDigits n).asString := by
  rw [Nat.repr, Nat.toDigits, toDigitsCore_eq_natDigits (n + 1) n [] (Nat.lt_succ_self n)]
  simp

theorem digitChar_val : ∀ d < 10, (Nat.digitChar d).toNat - 48 = d := by decide

theorem digitsVal_natDigits : ∀ n, digitsVal (natDigits n) = n := by
  intro n
  induction n using Nat.strong_induction_on with
  | _ n ih =>
    rw [natDigits]
    by_cases h10 : n / 10 = 0
    · rw [dif_pos h10]
      have h1 : (Nat.digitChar (n % 10)).toNat - 48 = n % 10 :=
        digitChar_val (n % 10) (by omega)
      simp only [digitsVal, List.foldl, Nat.mul_zero, Nat.zero_add, h1]
      omega
    · rw [dif_neg h10]
      rw [digitsVal, List.foldl_append]
      have := ih (n / 10) (by omega)
      rw [digitsVal] at this
      rw [this]
      simp [digitChar_val (n % 10) (by omega)]
      omega

theorem natRepr_inj {m n : Nat} (h : Nat.repr m = Nat.repr n) : m = n := by
  rw [repr_eq_natDigits, repr_eq_natDigits] at h
  have hd : natDigits m = natDigits n := congrArg String.data h
  rw [← digitsVal_natDigits m, hd, digitsVal_natDigits]

/-! ### String and association-list lemmas -/

theorem strStartsWith_append (a b : String) : strStartsWith (a ++ b) a = true := by
  rw [strStartsWith, String.data_append]
  rw [ List.isPrefixOf_iff_prefix]
  exact List.prefix_append _ _

theorem cacheFilename_startsWith (md5 : String → String) (p : String) (t : Nat) :
    strStartsWith (getCacheFilename md5 p t) (md5 p ++ "_") = true := by
  rw [getCacheFilename, String.append_assoc]
  exact strStartsWith_append _ _

theorem cacheFilename_inj_time (md5 : String → String) (p : String) {t1 t2 : Nat}
    (h : getCacheFilename md5 p t1 = getCacheFilename md5 p t2) : t1 = t2 := by
  apply natRepr_inj
  rw [getCacheFilename, getCacheFilename] at h
  have hd := congrArg String.data h
  simp only [String.data_append] at hd
  exact String.ext (List.append_cancel_left (List.append_cancel_right hd))

theorem find?_update_self {α : Type} (l : List (String × α)) (k : String) (v : α) :
    ((l.filter (fun p => !(p.fst == k)) ++ [(k, v)]).find? (fun p => p.fst == k))
      = some (k, v) := by
  rw [List.find?_append]
  have h1 : (l.filter (fun p => !(p.fst == k))).find? (fun p => p.fst == k) = none := by
    rw [List.find?_eq_none]
    intro x hx
    rw [List.mem_filter] at hx
    simp_all
  rw [h1]
  simp [List.find?]

theorem findFile_writeFileEntry_self (d : CacheDir) (n : String) (c : List Nat) :
    findFile (writeFileEntry d n c) n = some c := by
  rw [findFile, writeFileEntry, find?_update_self]
  rfl

theorem findFile_none_of_prefixfree (dir : CacheDir) (pre n : String)
    (hn : strStartsWith n pre = true)
    (hdir : ∀ p ∈ dir, strStartsWith p.fst pre = false) :
    findFile dir n = none := by
  rw [findFile]
  have h1 : dir.find? (fun p => p.fst == n) = none := by
    rw [List.find?_eq_none]
    intro x hx
    intro hc
    rw [beq_iff_eq] at hc
    rw [← hc] at hn
    rw [hdir x hx] at hn
    exact Bool.false_ne_true hn
  rw [h1]
  rfl

/-! ### Claim C2 -/

/-- Claim C2: after `saveThumbnailToCache` writes a thumbnail for a new
modification time, the cache directory holds exactly one file whose name
starts with the identifier's hash followed by `_` — the fresh entry — and
the cache filename of any other modification time is gone. -/
theorem C2_cache_single_entry_per_hash (md5 : String → String) (filePath : String)
    (tOld tNew : Nat) (buf : List Nat) (dir : CacheDir) (hne : tOld ≠ tNew) :
    (((saveThumbnailToCache md5 filePath tNew buf dir).map Prod.fst).filter
        (fun n => strStartsWith n (md5 filePath ++ "_")))
      = [getCacheFilename md5 filePath tNew] ∧
    getCacheFilename md5 filePath tOld
      ∉ (saveThumbnailToCache md5 filePath tNew buf dir).map Prod.fst := by
  have hfn : strStartsWith (getCacheFilename md5 filePath tNew) (md5 filePath ++ "_") = true :=
    cacheFilename_startsWith md5 filePath tNew
  have hsave : saveThumbnailToCache md5 filePath tNew buf dir
      = (dir.filter (fun p =>
          !(strStartsWith p.fst (md5 filePath ++ "_")
            && !(p.fst == getCacheFilename md5 filePath tNew)))).filter
          (fun p => !(p.fst == getCacheFilename md5 filePath tNew))
        ++ [(getCacheFilename md5 filePath tNew, buf)] := rfl
  have key : ∀ p ∈ (dir.filter (fun q =>
        !(strStartsWith q.fst (md5 filePath ++ "_")
          && !(q.fst == getCacheFilename md5 filePath tNew)))).filter
        (fun q => !(q.fst == getCacheFilename md5 filePath tNew)),
      strStartsWith p.fst (md5 filePath ++ "_") = false := by
    intro p hp
    rw [List.mem_filter] at hp
    obtain ⟨hp1, hp2⟩ := hp
    rw [List.mem_filter] at hp1
    obtain ⟨_, hp3⟩ := hp1
    cases hS : strStartsWith p.fst (md5 filePath ++ "_")
    · rfl
    · rw [hS] at hp3
      simp only [Bool.not_eq_eq_eq_not, Bool.not_true, Bool.true_and,
        Bool.not_eq_false] at hp3
      rw [hp3] at hp2
      simp at hp2
  have hfilter : (((saveThumbnailToCache md5 filePath tNew buf dir).map Prod.fst).filter
      (fun n => strStartsWith n (md5 filePath ++ "_")))
      = [getCacheFilename md5 filePath tNew] := by
    rw [hsave, List.map_append, List.filter_append]
    have h1 : (((dir.filter (fun q =>
        !(strStartsWith q.fst (md5 filePath ++ "_")
          && !(q.fst == getCacheFilename md5 filePath tNew)))).filter
        (fun q => !(q.fst == getCacheFilename md5 filePath tNew))).map Prod.fst).filter
        (fun n => strStartsWith n (md5 filePath ++ "_")) = [] := by
      rw [List.filter_eq_nil_iff]
      intro a ha
      rw [List.mem_map] at ha
      obtain ⟨p, hp, rfl⟩ := ha
      rw [key p hp]
      exact Bool.false_ne_true
    rw [h1]
    simp [hfn]
  refine ⟨hfilter, ?_⟩
  intro hmem
  have hmem2 : getCacheFilename md5 filePath tOld
      ∈ ((saveThumbnailToCache md5 filePath tNew buf dir).map Prod.fst).filter
        (fun n => strStartsWith n (md5 filePath ++ "_")) := by
    rw [List.mem_filter]
    exact ⟨hmem, cacheFilename_startsWith md5 filePath tOld⟩
  rw [hfilter] at hmem2
  rw [List.mem_singleton] at hmem2
  exact hne (cacheFilename_inj_time md5 filePath hmem2)

/-- Witness for C2 at a concrete identifier, two distinct timestamps and a
cache directory holding the old entry plus an unrelated file. -/
theorem C2_cache_single_entry_per_hash_witness :
    (1 : Nat) ≠ 2 ∧
    ((((saveThumbnailToCache (fun _ => "h") "a.png" 2 [7]
          [("h_1.jpg", [5]), ("x.jpg", [6])]).map Prod.fst).filter
        (fun n => strStartsWith n ((fun (_ : String) => "h") "a.png" ++ "_")))
      = [getCacheFilename (fun _ => "h") "a.png" 2] ∧
    getCacheFilename (fun _ => "h") "a.png" 1
      ∉ (saveThumbnailToCache (fun _ => "h") "a.png" 2 [7]
          [("h_1.jpg", [5]), ("x.jpg", [6])]).map Prod.fst) :=
  ⟨by decide,
   C2_cache_single_entry_per_hash (fun _ => "h") "a.png" 1 2 [7]
     [("h_1.jpg", [5]), ("x.jpg", [6])] (by decide)⟩

/-! ### Claim C1 -/

/-- Claim C1: for a local file and a byte range with
`0 ≤ start ≤ end < size`, the media route answers with status 206, a body
of exactly `end - start + 1` bytes equal to the slice `[start, end]` of the
file content, the header `Content-Range: bytes start-end/size`,
`Accept-Ranges: bytes`, and `Content-Length = end - start + 1`. -/
theorem C1_range_request_correct (fp : String) (content : List Nat) (s e : Nat)
    (hse : s ≤ e) (hlt : e < content.length) :
    (serveLocalMedia fp content (some (s, some e))).status = 206 ∧
    (serveLocalMedia fp content (some (s, some e))).body.length = e - s + 1 ∧
    (serveLocalMedia fp content (some (s, some e))).body
      = (List.range (e - s + 1)).map (fun i => content.getD (s + i) 0) ∧
    ("Content-Range",
      "bytes " ++ Nat.repr s ++ "-" ++ Nat.repr e ++ "/" ++ Nat.repr content.length)
      ∈ (serveLocalMedia fp content (some (s, some e))).headers ∧
    ("Accept-Ranges", "bytes") ∈ (serveLocalMedia fp content (some (s, some e))).headers ∧
    ("Content-Length", Nat.repr (e - s + 1))
      ∈ (serveLocalMedia fp content (some (s, some e))).headers := by
  have hlen : ((content.drop s).take (e - s + 1)).length = e - s + 1 := by
    rw [List.length_take, List.length_drop]
    omega
  refine ⟨rfl, hlen, ?_, by simp [serveLocalMedia], by simp [serveLocalMedia],
    by simp [serveLocalMedia]⟩
  show (content.drop s).take (e - s + 1)
      = (List.range (e - s + 1)).map (fun i => content.getD (s + i) 0)
  apply List.ext_getElem
  · simp [hlen]
  · intro i h1 h2
    have hi : i < e - s + 1 := by simpa [hlen] using h1
    have hsi : s + i < content.length := by omega
    rw [List.getElem_take, List.getElem_drop, List.getElem_map, List.getElem_range,
      List.getD_eq_getElem content 0 hsi]

/-- Witness for C1 at a concrete five-byte file and the range `1-3`. -/
theorem C1_range_request_correct_witness :
    (serveLocalMedia "a.mp4" [10, 20, 30, 40, 50] (some (1, some 3))).status = 206 ∧
    (serveLocalMedia "a.mp4" [10, 20, 30, 40, 50] (some (1, some 3))).body.length = 3 - 1 + 1 ∧
    (serveLocalMedia "a.mp4" [10, 20, 30, 40, 50] (some (1, some 3))).body
      = (List.range (3 - 1 + 1)).map (fun i => [10, 20, 30, 40, 50].getD (1 + i) 0) ∧
    ("Content-Range",
      "bytes " ++ Nat.repr 1 ++ "-" ++ Nat.repr 3 ++ "/" ++ Nat.repr ([10, 20, 30, 40, 50] : List Nat).length)
      ∈ (serveLocalMedia "a.mp4" [10, 20, 30, 40, 50] (some (1, some 3))).headers ∧
    ("Accept-Ranges", "bytes")
      ∈ (serveLocalMedia "a.mp4" [10, 20, 30, 40, 50] (some (1, some 3))).headers ∧
    ("Content-Length", Nat.repr (3 - 1 + 1))
      ∈ (serveLocalMedia "a.mp4" [10, 20, 30, 40, 50] (some (1, some 3))).headers :=
  C1_range_request_correct "a.mp4" [10, 20, 30, 40, 50] 1 3 (by decide) (by decide)

/-! ### Claim C10 -/

/-- Claim C10: any filename whose lowercase extension is `.ogg` is
classified as `video`, never `audio`, because the `video` row of
`MEDIA_EXTENSIONS` is consulted first. -/
theorem C10_ogg_is_video (filename : String)
    (h : strToLower (extname filename) = ".ogg") :
    getMediaType filename = "video" := by
  rw [getMediaType, h]
  rfl

/-- Witness for C10 at the concrete filename `song.ogg`. -/
theorem C10_ogg_is_video_witness :
    strToLower (extname "song.ogg") = ".ogg" ∧ getMediaType "song.ogg" = "video" :=
  ⟨by decide, C10_ogg_is_video "song.ogg" (by decide)⟩

/-! ### Claim C6 -/

theorem poolLookup_poolSet_self (t : List (String × FtpSession)) (k : String) (s : FtpSession) :
    poolLookup (poolSet t k s) k = some s := by
  rw [poolLookup, poolSet, find?_update_self]
  rfl

theorem openNewFtpConnection_lookup (a : Bool) (k : String) (st : PoolState)
    (s : FtpSession) (st2 : PoolState)
    (h : openNewFtpConnection a k st = (some s, st2)) :
    poolLookup st2.connections k = some s := by
  cases a with
  | false => simp [openNewFtpConnection] at h
  | true =>
    rw [openNewFtpConnection] at h
    simp only [if_true] at h
    rw [Prod.mk.injEq] at h
    obtain ⟨hs, hst⟩ := h
    rw [← hst]
    exact Option.some.inj hs ▸ poolLookup_poolSet_self st.connections k _

/-- Claim C6: a second `getFtpConnection` call with the same
`(host, port, user)` key, made while the session stored by a successful
first call still reports itself not closed, returns that exact session
and leaves the pool state untouched — in particular no new
connect/authenticate round trip happens (`accessCount` is unchanged). -/
theorem C6_pool_reuses_live_session (a1 a2 : Bool) (cfg : FtpConfig)
    (st0 st1 : PoolState) (s : FtpSession)
    (h1 : getFtpConnection a1 cfg st0 = (some s, st1))
    (h2 : s.closed = false) :
    getFtpConnection a2 cfg st1 = (some s, st1) := by
  have hlook : poolLookup st1.connections (connKey cfg) = some s := by
    rw [getFtpConnection] at h1
    cases hl : poolLookup st0.connections (connKey cfg) with
    | none =>
      rw [hl] at h1
      exact openNewFtpConnection_lookup a1 _ st0 s st1 h1
    | some c =>
      cases hc : c.closed with
      | true =>
        simp only [hl, hc, if_true] at h1
        exact openNewFtpConnection_lookup a1 _ st0 s st1 h1
      | false =>
        simp only [hl, hc, Bool.false_eq_true, if_false, Prod.mk.injEq,
          Option.some.injEq] at h1
        obtain ⟨hcs, hst⟩ := h1
        rw [← hst, hl, hcs]
  rw [getFtpConnection, hlook]
  simp [h2]

/-- Witness for C6: a fresh pool, one successful connect, then a second
acquire with the connect environment failing; the cached session is
returned unchanged. -/
theorem C6_pool_reuses_live_session_witness :
    getFtpConnection true (FtpConfig.mk "h" 21 "u" "" false "/") (PoolState.mk [] 0 0)
      = (some (FtpSession.mk 0 false),
         PoolState.mk [("h:21:u", FtpSession.mk 0 false)] 1 1) ∧
    (FtpSession.mk 0 false).closed = false ∧
    getFtpConnection false (FtpConfig.mk "h" 21 "u" "" false "/")
        (PoolState.mk [("h:21:u", FtpSession.mk 0 false)] 1 1)
      = (some (FtpSession.mk 0 false),
         PoolState.mk [("h:21:u", FtpSession.mk 0 false)] 1 1) :=
  ⟨by decide, by decide,
   C6_pool_reuses_live_session true false (FtpConfig.mk "h" 21 "u" "" false "/")
     (PoolState.mk [] 0 0) (PoolState.mk [("h:21:u", FtpSession.mk 0 false)] 1 1)
     (FtpSession.mk 0 false) (by decide) (by decide)⟩

/-! ### Thumbnail-route unfolding lemmas -/

theorem thumbnailImageHandler_local (env : Env) (f : String) (st : CacheDir)
    (hftp : isFtpPath f = false) (hex : env.existsSync f = true) :
    thumbnailImageHandler env f st
      = thumbCore env f (strToLower (extname f)) (env.statMtime f) false st := by
  rw [thumbnailImageHandler]
  simp [hftp, hex]

theorem thumbnailImageHandler_ftp (env : Env) (f : String) (st : CacheDir)
    (hftp : isFtpPath f = true) :
    thumbnailImageHandler env f st
      = thumbCore env f (strToLower (extname f)) env.now true st := by
  rw [thumbnailImageHandler]
  simp [hftp]

theorem thumbCore_hit (env : Env) (f ext : String) (mt : Nat) (ftp : Bool) (st : CacheDir)
    (buf : List Nat) (hsvg : ext ≠ ".svg") (hgif : ext ≠ ".gif")
    (hc : getCachedThumbnail env.md5 f mt st = some buf) :
    thumbCore env f ext mt ftp st
      = ({ status := 200, contentType := "image/jpeg", body := buf,
           fetchInvoked := false, sharpInvoked := false }, st) := by
  rw [thumbCore]
  simp [hsvg, hgif, hc]

theorem thumbCore_miss_local (env : Env) (f ext : String) (mt : Nat) (st : CacheDir)
    (bs tb : List Nat) (hsvg : ext ≠ ".svg") (hgif : ext ≠ ".gif")
    (hc : getCachedThumbnail env.md5 f mt st = none)
    (hread : env.readFile f = some bs) (hsharp : env.sharp bs = some tb) :
    thumbCore env f ext mt false st
      = ({ status := 200, contentType := "image/jpeg", body := tb,
           fetchInvoked := true, sharpInvoked := true },
         saveThumbnailToCache env.md5 f mt tb st) := by
  rw [thumbCore]
  simp [hsvg, hgif, hc, hread, thumbAfterFetch, hsharp]

theorem thumbCore_miss_ftp (env : Env) (f ext : String) (mt : Nat) (st : CacheDir)
    (cfg : FtpConfig) (bs tb : List Nat) (hsvg : ext ≠ ".svg") (hgif : ext ≠ ".gif")
    (hc : getCachedThumbnail env.md5 f mt st = none)
    (hcfg : env.parseFtpPath f = some cfg)
    (hdl : env.ftpDownload cfg.path = some bs)
    (hsharp : env.sharp bs = some tb) :
    thumbCore env f ext mt true st
      = ({ status := 200, contentType := "image/jpeg", body := tb,
           fetchInvoked := true, sharpInvoked := true },
         saveThumbnailToCache env.md5 f mt tb st) := by
  rw [thumbCore]
  simp [hsvg, hgif, hc, hcfg, hdl, thumbAfterFetch, hsharp]

/-! ### Claim C3 -/

/-- Claim C3: invoking the thumbnail route twice for the same local
identifier (hence the same `(identifier, modifiedAt)` pair) performs the
decode/resize/encode work at most on the first call: the second call
returns a body identical to the first call's, invokes neither the
raw-bytes provider nor `sharp`, and leaves the cache directory as the
first call left it. -/
theorem C3_thumbnail_cache_idempotent (env : Env) (f : String) (st0 : CacheDir)
    (bs tb : List Nat)
    (hftp : isFtpPath f = false)
    (hex : env.existsSync f = true)
    (hsvg : strToLower (extname f) ≠ ".svg")
    (hgif : strToLower (extname f) ≠ ".gif")
    (hread : env.readFile f = some bs)
    (hsharp : env.sharp bs = some tb) :
    (thumbnailImageHandler env f (thumbnailImageHandler env f st0).snd).fst.body
      = (thumbnailImageHandler env f st0).fst.body ∧
    (thumbnailImageHandler env f (thumbnailImageHandler env f st0).snd).fst.fetchInvoked
      = false ∧
    (thumbnailImageHandler env f (thumbnailImageHandler env f st0).snd).fst.sharpInvoked
      = false ∧
    (thumbnailImageHandler env f (thumbnailImageHandler env f st0).snd).snd
      = (thumbnailImageHandler env f st0).snd := by
  rw [thumbnailImageHandler_local env f st0 hftp hex]
  cases hc : getCachedThumbnail env.md5 f (env.statMtime f) st0 with
  | some buf =>
    rw [thumbCore_hit env f _ _ false st0 buf hsvg hgif hc]
    rw [thumbnailImageHandler_local env f st0 hftp hex,
        thumbCore_hit env f _ _ false st0 buf hsvg hgif hc]
    exact ⟨rfl, rfl, rfl, rfl⟩
  | none =>
    rw [thumbCore_miss_local env f _ _ st0 bs tb hsvg hgif hc hread hsharp]
    have hc2 : getCachedThumbnail env.md5 f (env.statMtime f)
        (saveThumbnailToCache env.md5 f (env.statMtime f) tb st0) = some tb := by
      rw [getCachedThumbnail]
      exact findFile_writeFileEntry_self _ _ _
    rw [thumbnailImageHandler_local env f _ hftp hex,
        thumbCore_hit env f _ _ false _ tb hsvg hgif hc2]
    exact ⟨rfl, rfl, rfl, rfl⟩

/-- Witness for C3: a concrete local png in the all-ok environment,
starting from an empty cache. -/
theorem C3_thumbnail_cache_idempotent_witness :
    isFtpPath "a.png" = false ∧
    ((thumbnailImageHandler envLocalOk "a.png"
        (thumbnailImageHandler envLocalOk "a.png" []).snd).fst.body
      = (thumbnailImageHandler envLocalOk "a.png" []).fst.body ∧
    (thumbnailImageHandler envLocalOk "a.png"
        (thumbnailImageHandler envLocalOk "a.png" []).snd).fst.fetchInvoked = false ∧
    (thumbnailImageHandler envLocalOk "a.png"
        (thumbnailImageHandler envLocalOk "a.png" []).snd).fst.sharpInvoked = false ∧
    (thumbnailImageHandler envLocalOk "a.png"
        (thumbnailImageHandler envLocalOk "a.png" []).snd).snd
      = (thumbnailImageHandler envLocalOk "a.png" []).snd) :=
  ⟨by decide,
   C3_thumbnail_cache_idempotent envLocalOk "a.png" [] [1, 2] [9]
     (by decide) rfl (by decide) (by decide) rfl rfl⟩

/-! ### Claim C4 -/

/-- Claim C4: for an identifier whose lowercase extension is `.svg` or
`.gif`, the thumbnail route returns the fetched source bytes unchanged
with content type `image/svg+xml` respectively `image/gif`, never invokes
the raster re-encoder, and writes nothing to the thumbnail cache
directory. -/
theorem C4_svg_gif_passthrough (env : Env) (f : String) (st0 : CacheDir) (bs : List Nat)
    (hext : strToLower (extname f) = ".svg" ∨ strToLower (extname f) = ".gif")
    (hfetch : if isFtpPath f = true
      then ∃ cfg, env.parseFtpPath f = some cfg ∧ env.ftpDownload cfg.path = some bs
      else env.existsSync f = true ∧ env.readFile f = some bs) :
    (thumbnailImageHandler env f st0).fst.status = 200 ∧
    (thumbnailImageHandler env f st0).fst.body = bs ∧
    (thumbnailImageHandler env f st0).fst.contentType
      = (if strToLower (extname f) = ".svg" then "image/svg+xml" else "image/gif") ∧
    (thumbnailImageHandler env f st0).fst.sharpInvoked = false ∧
    (thumbnailImageHandler env f st0).snd = st0 := by
  by_cases hftp : isFtpPath f = true
  · rw [if_pos hftp] at hfetch
    obtain ⟨cfg, hcfg, hdl⟩ := hfetch
    rw [thumbnailImageHandler_ftp env f st0 hftp]
    rcases hext with h | h
    · rw [thumbCore]
      simp [h, hcfg, hdl, thumbAfterFetch]
    · rw [thumbCore]
      simp [h, hcfg, hdl, thumbAfterFetch]
  · rw [if_neg hftp] at hfetch
    obtain ⟨hex, hread⟩ := hfetch
    rw [thumbnailImageHandler_local env f st0 (Bool.not_eq_true _ ▸ hftp) hex]
    rcases hext with h | h
    · rw [thumbCore]
      simp [h, hread, thumbAfterFetch]
    · rw [thumbCore]
      simp [h, hread, thumbAfterFetch]

/-- Witness for C4: a concrete local svg file in the all-ok environment. -/
theorem C4_svg_gif_passthrough_witness :
    (strToLower (extname "img.svg") = ".svg" ∨ strToLower (extname "img.svg") = ".gif") ∧
    ((thumbnailImageHandler envLocalOk "img.svg" []).fst.status = 200 ∧
    (thumbnailImageHandler envLocalOk "img.svg" []).fst.body = [1, 2] ∧
    (thumbnailImageHandler envLocalOk "img.svg" []).fst.contentType
      = (if strToLower (extname "img.svg") = ".svg" then "image/svg+xml" else "image/gif") ∧
    (thumbnailImageHandler envLocalOk "img.svg" []).fst.sharpInvoked = false ∧
    (thumbnailImageHandler envLocalOk "img.svg" []).snd = []) :=
  ⟨Or.inl (by decide),
   C4_svg_gif_passthrough envLocalOk "img.svg" [] [1, 2] (Or.inl (by decide))
     (by rw [if_neg (by decide)]; exact ⟨rfl, rfl⟩)⟩

/-! ### Claim C9 -/

theorem getCachedThumbnail_after_other_save (md5 : String → String) (f : String)
    (t1 t2 : Nat) (buf : List Nat) (dir : CacheDir)
    (hne : t1 ≠ t2)
    (hdir : ∀ p ∈ dir, strStartsWith p.fst (md5 f ++ "_") = false) :
    getCachedThumbnail md5 f t2 (saveThumbnailToCache md5 f t1 buf dir) = none := by
  have hfn12 : getCacheFilename md5 f t1 ≠ getCacheFilename md5 f t2 :=
    fun h => hne (cacheFilename_inj_time md5 f h)
  rw [getCachedThumbnail, findFile]
  have hsave : saveThumbnailToCache md5 f t1 buf dir
      = (dir.filter (fun p =>
          !(strStartsWith p.fst (md5 f ++ "_")
            && !(p.fst == getCacheFilename md5 f t1)))).filter
          (fun p => !(p.fst == getCacheFilename md5 f t1))
        ++ [(getCacheFilename md5 f t1, buf)] := rfl
  rw [hsave, List.find?_append]
  have h1 : ((dir.filter (fun p =>
      !(strStartsWith p.fst (md5 f ++ "_")
        && !(p.fst == getCacheFilename md5 f t1)))).filter
      (fun p => !(p.fst == getCacheFilename md5 f t1))).find?
      (fun p => p.fst == getCacheFilename md5 f t2) = none := by
    rw [List.find?_eq_none]
    intro x hx hbeq
    rw [List.mem_filter] at hx
    obtain ⟨hx1, _⟩ := hx
    rw [List.mem_filter] at hx1
    obtain ⟨hx2, _⟩ := hx1
    rw [beq_iff_eq] at hbeq
    have hxp := hdir x hx2
    rw [hbeq, cacheFilename_startsWith md5 f t2] at hxp
    exact absurd hxp (by decide)
  have h2 : [(getCacheFilename md5 f t1, buf)].find?
      (fun p => p.fst == getCacheFilename md5 f t2) = none := by
    have hb : (getCacheFilename md5 f t1 == getCacheFilename md5 f t2) = false :=
      beq_eq_false_iff_ne.mpr hfn12
    simp [List.find?, hb]
  rw [h1, h2]
  rfl

/-- Claim C9: for an `ftp://` or `ftps://` identifier the thumbnail route
keys the cache on the current clock instead of the remote file's
modification time, so two invocations at distinct clock values use
distinct cache filenames, both cache probes miss, and every request
re-downloads the raw bytes and re-encodes them. -/
theorem C9_ftp_thumbnail_keyed_on_clock (env : Env) (f : String) (cfg : FtpConfig)
    (st0 : CacheDir) (bs tb : List Nat) (n1 n2 : Nat)
    (hftp : isFtpPath f = true)
    (hsvg : strToLower (extname f) ≠ ".svg")
    (hgif : strToLower (extname f) ≠ ".gif")
    (hcfg : env.parseFtpPath f = some cfg)
    (hdl : env.ftpDownload cfg.path = some bs)
    (hsharp : env.sharp bs = some tb)
    (hne : n1 ≠ n2)
    (hdir : ∀ p ∈ st0, strStartsWith p.fst (env.md5 f ++ "_") = false) :
    getCacheFilename env.md5 f n1 ≠ getCacheFilename env.md5 f n2 ∧
    (thumbnailImageHandler { env with now := n1 } f st0).fst.fetchInvoked = true ∧
    (thumbnailImageHandler { env with now := n1 } f st0).fst.sharpInvoked = true ∧
    (thumbnailImageHandler { env with now := n2 } f
        (thumbnailImageHandler { env with now := n1 } f st0).snd).fst.fetchInvoked = true ∧
    (thumbnailImageHandler { env with now := n2 } f
        (thumbnailImageHandler { env with now := n1 } f st0).snd).fst.sharpInvoked = true := by
  have hfn : getCacheFilename env.md5 f n1 ≠ getCacheFilename env.md5 f n2 :=
    fun h => hne (cacheFilename_inj_time env.md5 f h)
  have hc1 : getCachedThumbnail env.md5 f n1 st0 = none :=
    findFile_none_of_prefixfree st0 (env.md5 f ++ "_") _
      (cacheFilename_startsWith env.md5 f n1) hdir
  rw [thumbnailImageHandler_ftp { env with now := n1 } f st0 hftp]
  rw [thumbCore_miss_ftp { env with now := n1 } f _ _ st0 cfg bs tb hsvg hgif hc1 hcfg
      hdl hsharp]
  have hc2 : getCachedThumbnail env.md5 f n2
      (saveThumbnailToCache env.md5 f n1 tb st0) = none :=
    getCachedThumbnail_after_other_save env.md5 f n1 n2 tb st0 hne hdir
  rw [thumbnailImageHandler_ftp { env with now := n2 } f _ hftp]
  rw [thumbCore_miss_ftp { env with now := n2 } f _ _ _ cfg bs tb hsvg hgif hc2 hcfg
      hdl hsharp]
  exact ⟨hfn, rfl, rfl, rfl, rfl⟩

/-- Witness for C9 at a concrete FTP identifier and clock values 0 and 1,
starting from an empty cache. -/
theorem C9_ftp_thumbnail_keyed_on_clock_witness :
    (0 : Nat) ≠ 1 ∧
    (getCacheFilename envFtpOk.md5 "ftp://host/a.png" 0
        ≠ getCacheFilename envFtpOk.md5 "ftp://host/a.png" 1 ∧
    (thumbnailImageHandler { envFtpOk with now := 0 } "ftp://host/a.png" []).fst.fetchInvoked
      = true ∧
    (thumbnailImageHandler { envFtpOk with now := 0 } "ftp://host/a.png" []).fst.sharpInvoked
      = true ∧
    (thumbnailImageHandler { envFtpOk with now := 1 } "ftp://host/a.png"
        (thumbnailImageHandler { envFtpOk with now := 0 } "ftp://host/a.png" []).snd).fst.fetchInvoked
      = true ∧
    (thumbnailImageHandler { envFtpOk with now := 1 } "ftp://host/a.png"
        (thumbnailImageHandler { envFtpOk with now := 0 } "ftp://host/a.png" []).snd).fst.sharpInvoked
      = true) :=
  ⟨by decide,
   C9_ftp_thumbnail_keyed_on_clock envFtpOk "ftp://host/a.png"
     (FtpConfig.mk "host" 21 "u" "" false "/a.png") [] [1, 2] [9] 0 1
     (by decide) (by decide) (by decide) rfl rfl rfl (by decide)
     (by intro p hp; exact absurd hp (List.not_mem_nil p))⟩

/-! ### Claim C7 -/

theorem scanEntriesLocal_append (sep : Char) (b d : String) (xs ys : List FsTree) :
    scanEntriesLocal sep b d (xs ++ ys)
      = scanEntriesLocal sep b d xs ++ scanEntriesLocal sep b d ys := by
  induction xs with
  | nil => simp [scanEntriesLocal]
  | cons e rest ih =>
    cases e with
    | file n sz mt => simp [scanEntriesLocal, ih, List.append_assoc]
    | dir n rd es => simp [scanEntriesLocal, ih, List.append_assoc]

theorem scanItemsFtp_append (cfg : FtpConfig) (b d : String) (xs ys : List FsTree) :
    scanItemsFtp cfg b d (xs ++ ys)
      = scanItemsFtp cfg b d xs ++ scanItemsFtp cfg b d ys := by
  induction xs with
  | nil => simp [scanItemsFtp]
  | cons e rest ih =>
    cases e with
    | file n sz mt => simp [scanItemsFtp, ih, List.append_assoc]
    | dir n rd es => simp [scanItemsFtp, ih, List.append_assoc]

/-- Claim C7: in both the local and the FTP recursive scan, a directory
whose listing fails is caught at that directory's scope and contributes
zero records: scanning a directory containing the unreadable subdirectory
yields exactly the records of the same directory with that subdirectory
removed, so every other readable subtree is still returned. -/
theorem C7_unreadable_subtree_isolated (sep : Char) (base dirPath nm m : String)
    (pre post sub : List FsTree) (cfg : FtpConfig) (basePath fdir fnm fm : String)
    (fpre fpost fsub : List FsTree) :
    getMediaFilesRecursive sep base dirPath
        (FsTree.dir nm true (pre ++ FsTree.dir m false sub :: post))
      = getMediaFilesRecursive sep base dirPath (FsTree.dir nm true (pre ++ post)) ∧
    scanDirectoryFtp cfg basePath fdir
        (FsTree.dir fnm true (fpre ++ FsTree.dir fm false fsub :: fpost))
      = scanDirectoryFtp cfg basePath fdir (FsTree.dir fnm true (fpre ++ fpost)) := by
  constructor
  · rw [getMediaFilesRecursive, getMediaFilesRecursive,
      scanEntriesLocal_append, scanEntriesLocal_append]
    simp [scanEntriesLocal, getMediaFilesRecursive]
  · rw [scanDirectoryFtp, scanDirectoryFtp,
      scanItemsFtp_append, scanItemsFtp_append]
    simp [scanItemsFtp, scanDirectoryFtp]

/-! ### Claim C8 -/

theorem drop_after_sep (a : List Char) (c : Char) (l : List Char) :
    (a ++ c :: l).drop (a.length + 1) = l := by
  have h : a ++ c :: l = (a ++ [c]) ++ l := by simp
  rw [h]
  have h2 := List.drop_left (a ++ [c]) l
  rw [List.length_append, List.length_singleton] at h2
  exact h2

theorem pathRelative_joinPath (sep : Char) (d n : String) :
    pathRelative d (joinPath sep d n) = n := by
  rw [pathRelative, joinPath]
  rw [show (String.mk (d.data ++ sep :: n.data)).data = d.data ++ sep :: n.data from rfl]
  rw [drop_after_sep]

mutual

theorem scan_eq_filterMap (sep : Char) (base d : String) :
    ∀ t : FsTree, getMediaFilesRecursive sep base d t
      = (filesUnder sep d t).filterMap
          (fun x => if isMediaFile x.snd.fst then some (mkLocalRecord base x) else none)
  | FsTree.file n sz mt => rfl
  | FsTree.dir n false es => rfl
  | FsTree.dir n true es => by
    rw [getMediaFilesRecursive, filesUnder]
    exact scanList_eq_filterMap sep base d es

theorem scanList_eq_filterMap (sep : Char) (base d : String) :
    ∀ es : List FsTree, scanEntriesLocal sep base d es
      = (filesUnderList sep d es).filterMap
          (fun x => if isMediaFile x.snd.fst then some (mkLocalRecord base x) else none)
  | [] => rfl
  | FsTree.file n sz mt :: rest => by
    rw [scanEntriesLocal, filesUnderList, List.filterMap_cons]
    cases hm : isMediaFile n with
    | true => simp [hm, mkLocalRecord, scanList_eq_filterMap sep base d rest]
    | false => simp [hm, scanList_eq_filterMap sep base d rest]
  | FsTree.dir n rd es :: rest => by
    rw [scanEntriesLocal, filesUnderList, List.filterMap_append,
      scan_eq_filterMap sep base (joinPath sep d n) (FsTree.dir n rd es),
      scanList_eq_filterMap sep base d rest]

end

theorem relJoin_cons (sep : Char) (n c : String) (cs : List String) :
    relJoin sep (n :: c :: cs) = String.mk (n.data ++ sep :: (relJoin sep (c :: cs)).data) :=
  rfl

mutual

theorem filesUnder_shape (sep : Char) :
    ∀ (t : FsTree) (d : String) (x : String × String × Nat × Nat),
      x ∈ filesUnder sep d t →
      ∃ comps : List String, comps ≠ [] ∧ x.fst = joinPath sep d (relJoin sep comps)
  | FsTree.file n sz mt, d, x, hx => absurd hx (List.not_mem_nil x)
  | FsTree.dir n false es, d, x, hx => absurd hx (List.not_mem_nil x)
  | FsTree.dir n true es, d, x, hx =>
    filesUnderList_shape sep es d x (by rwa [filesUnder] at hx)

theorem filesUnderList_shape (sep : Char) :
    ∀ (es : List FsTree) (d : String) (x : String × String × Nat × Nat),
      x ∈ filesUnderList sep d es →
      ∃ comps : List String, comps ≠ [] ∧ x.fst = joinPath sep d (relJoin sep comps)
  | [], d, x, hx => absurd hx (List.not_mem_nil x)
  | FsTree.file n sz mt :: rest, d, x, hx => by
    rw [filesUnderList] at hx
    rcases List.mem_cons.mp hx with h | h
    · exact ⟨[n], by simp, by rw [h]; rfl⟩
    · exact filesUnderList_shape sep rest d x h
  | FsTree.dir n rd es :: rest, d, x, hx => by
    rw [filesUnderList] at hx
    rcases List.mem_append.mp hx with h | h
    · obtain ⟨comps, hne, hp⟩ :=
        filesUnder_shape sep (FsTree.dir n rd es) (joinPath sep d n) x h
      refine ⟨n :: comps, by simp, ?_⟩
      rw [hp]
      cases comps with
      | nil => exact absurd rfl hne
      | cons c cs =>
        rw [relJoin_cons]
        rw [joinPath, joinPath, joinPath]
        apply congrArg String.mk
        simp
    · exact filesUnderList_shape sep rest d x h

end

/-- Counterexample to claim C8 as stated: under the Windows platform
separator, the scan's `relativePath` for a nested media file is
backslash-separated, not forward-slash-separated. -/
theorem C8_forward_slash_counterexample :
    (getMediaFilesRecursive '\\' "C:m" "C:m"
        (FsTree.dir "m" true [FsTree.dir "sub" true [FsTree.file "a.jpg" 1 2]])).map
      (fun r => r.relativePath) = ["sub\\a.jpg"] ∧
    ("sub\\a.jpg" : String) ≠ "sub/a.jpg" :=
  ⟨by decide, by decide⟩

/-- Claim C8 (amended): the local scan returns exactly the files whose
lowercase extension is in the supported tables (`isMediaFile`), and every
record's `relativePath` is the file's location relative to the scan root
with components joined by the platform path separator — forward slashes
precisely on platforms whose separator is `/`. -/
theorem C8_scan_media_exact_platform_sep (sep : Char) (base : String) (t : FsTree) :
    getMediaFilesRecursive sep base base t
      = (filesUnder sep base t).filterMap
          (fun x => if isMediaFile x.snd.fst then some (mkLocalRecord base x) else none) ∧
    ∀ r ∈ getMediaFilesRecursive sep base base t, ∃ comps : List String,
      comps ≠ [] ∧ r.path = joinPath sep base (relJoin sep comps) ∧
      r.relativePath = relJoin sep comps := by
  refine ⟨scan_eq_filterMap sep base base t, ?_⟩
  intro r hr
  rw [scan_eq_filterMap sep base base t, List.mem_filterMap] at hr
  obtain ⟨x, hx, hfx⟩ := hr
  obtain ⟨comps, hne, hp⟩ := filesUnder_shape sep t base x hx
  cases hm : isMediaFile x.snd.fst with
  | false => rw [hm] at hfx; simp at hfx
  | true =>
    rw [hm] at hfx
    simp only [if_true, Option.some.injEq] at hfx
    refine ⟨comps, hne, ?_, ?_⟩
    · rw [← hfx]
      show x.fst = joinPath sep base (relJoin sep comps)
      exact hp
    · rw [← hfx]
      show pathRelative base x.fst = relJoin sep comps
      rw [hp, pathRelative_joinPath]

/-- Witness for C8 (amended) at a POSIX separator and a small tree. -/
theorem C8_scan_media_exact_platform_sep_witness :
    getMediaFilesRecursive '/' "r" "r"
        (FsTree.dir "r" true [FsTree.dir "sub" true [FsTree.file "a.jpg" 1 2],
                              FsTree.file "x.txt" 3 4])
      = (filesUnder '/' "r"
          (FsTree.dir "r" true [FsTree.dir "sub" true [FsTree.file "a.jpg" 1 2],
                                FsTree.file "x.txt" 3 4])).filterMap
          (fun x => if isMediaFile x.snd.fst then some (mkLocalRecord "r" x) else none) ∧
    ∀ r ∈ getMediaFilesRecursive '/' "r" "r"
        (FsTree.dir "r" true [FsTree.dir "sub" true [FsTree.file "a.jpg" 1 2],
                              FsTree.file "x.txt" 3 4]), ∃ comps : List String,
      comps ≠ [] ∧ r.path = joinPath '/' "r" (relJoin '/' comps) ∧
      r.relativePath = relJoin '/' comps :=
  C8_scan_media_exact_platform_sep '/' "r"
    (FsTree.dir "r" true [FsTree.dir "sub" true [FsTree.file "a.jpg" 1 2],
                          FsTree.file "x.txt" 3 4])

/-! ### Claim C5 -/

theorem bulkStep_total (env : Env) (total i : Nat) (f : FileRec) (st : CacheDir)
    (r : BulkResults) : (bulkStep env total i f st r).snd.fst.total = r.total := by
  rw [bulkStep]
  dsimp only
  repeat' split
  all_goals rfl

theorem bulkStep_count (env : Env) (total i : Nat) (f : FileRec) (st : CacheDir)
    (r : BulkResults) :
    (bulkStep env total i f st r).snd.fst.generated
      + (bulkStep env total i f st r).snd.fst.cached
      + (bulkStep env total i f st r).snd.fst.skipped
      + (bulkStep env total i f st r).snd.fst.errors.length
      = r.generated + r.cached + r.skipped + r.errors.length + 1 := by
  rw [bulkStep]
  dsimp only
  repeat' split
  all_goals simp [List.length_append]
  all_goals omega

theorem bulkStep_errors_extend (env : Env) (total i : Nat) (f : FileRec) (st : CacheDir)
    (r : BulkResults) :
    ∃ tail, (bulkStep env total i f st r).snd.fst.errors = r.errors ++ tail := by
  rw [bulkStep]
  dsimp only
  repeat' split
  all_goals first
    | exact ⟨[], (List.append_nil _).symm⟩
    | exact ⟨_, rfl⟩

theorem bulkStep_event_progress (env : Env) (total i : Nat) (f : FileRec) (st : CacheDir)
    (r : BulkResults) :
    ∀ e, (bulkStep env total i f st r).snd.snd = some e → isCompleteEvent e = false := by
  rw [bulkStep]
  dsimp only
  repeat' split
  all_goals intro e he
  all_goals cases he
  all_goals rfl

theorem bulkRun_total (env : Env) (total : Nat) :
    ∀ (fs : List FileRec) (i : Nat) (st : CacheDir) (r : BulkResults),
      (bulkRun env total i fs st r).snd.fst.total = r.total := by
  intro fs
  induction fs with
  | nil => intro i st r; rfl
  | cons f rest ih =>
    intro i st r
    rw [bulkRun]
    rw [ih (i + 1) _ _]
    exact bulkStep_total env total i f st r

theorem bulkRun_count (env : Env) (total : Nat) :
    ∀ (fs : List FileRec) (i : Nat) (st : CacheDir) (r : BulkResults),
      (bulkRun env total i fs st r).snd.fst.generated
        + (bulkRun env total i fs st r).snd.fst.cached
        + (bulkRun env total i fs st r).snd.fst.skipped
        + (bulkRun env total i fs st r).snd.fst.errors.length
        = r.generated + r.cached + r.skipped + r.errors.length + fs.length := by
  intro fs
  induction fs with
  | nil => intro i st r; rfl
  | cons f rest ih =>
    intro i st r
    rw [bulkRun]
    rw [ih (i + 1) _ _]
    rw [bulkStep_count env total i f st r]
    simp [List.length_cons]
    omega

theorem bulkRun_errors_extend (env : Env) (total : Nat) :
    ∀ (fs : List FileRec) (i : Nat) (st : CacheDir) (r : BulkResults),
      ∃ tail, (bulkRun env total i fs st r).snd.fst.errors = r.errors ++ tail := by
  intro fs
  induction fs with
  | nil => intro i st r; exact ⟨[], (List.append_nil _).symm⟩
  | cons f rest ih =>
    intro i st r
    rw [bulkRun]
    obtain ⟨t2, ht2⟩ := ih (i + 1) (bulkStep env total i f st r).fst
      (bulkStep env total i f st r).snd.fst
    obtain ⟨t1, ht1⟩ := bulkStep_errors_extend env total i f st r
    exact ⟨t1 ++ t2, by rw [ht2, ht1, List.append_assoc]⟩

theorem bulkRun_events_progress (env : Env) (total : Nat) :
    ∀ (fs : List FileRec) (i : Nat) (st : CacheDir) (r : BulkResults),
      ∀ ev ∈ (bulkRun env total i fs st r).fst, isCompleteEvent ev = false := by
  intro fs
  induction fs with
  | nil => intro i st r ev hev; exact absurd hev (List.not_mem_nil ev)
  | cons f rest ih =>
    intro i st r ev hev
    rw [bulkRun] at hev
    rcases List.mem_append.mp hev with h | h
    · rcases hs : (bulkStep env total i f st r).snd.snd with _ | e
      · rw [hs] at h
        exact absurd h (List.not_mem_nil ev)
      · rw [hs] at h
        rw [List.mem_singleton.mp h]
        exact bulkStep_event_progress env total i f st r e hs
    · exact ih (i + 1) _ _ ev h

theorem bulkRun_append (env : Env) (total : Nat) :
    ∀ (xs ys : List FileRec) (i : Nat) (st : CacheDir) (r : BulkResults),
      bulkRun env total i (xs ++ ys) st r
        = ((bulkRun env total i xs st r).fst
             ++ (bulkRun env total (i + xs.length) ys
                  (bulkRun env total i xs st r).snd.snd
                  (bulkRun env total i xs st r).snd.fst).fst,
           (bulkRun env total (i + xs.length) ys
              (bulkRun env total i xs st r).snd.snd
              (bulkRun env total i xs st r).snd.fst).snd) := by
  intro xs
  induction xs with
  | nil =>
    intro ys i st r
    simp [bulkRun]
  | cons f rest ih =>
    intro ys i st r
    rw [List.cons_append, bulkRun, bulkRun]
    rw [ih ys (i + 1) _ _]
    have harith : i + 1 + rest.length = i + (rest.length + 1) := by omega
    rw [harith]
    simp [List.length_cons, List.append_assoc]

/-- Claim C5: in a bulk thumbnail job whose input contains an unreachable
image record `K` (local source absent, not served from cache), the job
records `K` in the error list and continues: the event stream ends with
exactly one terminal summary event carrying the final results, the
summary's `total` is the input length, `K`'s name appears in `errors`,
and every record is accounted for (`generated + cached + skipped +
errors = total`). -/
theorem C5_bulk_job_terminal_summary (env : Env) (pre post : List FileRec) (K : FileRec)
    (st0 : CacheDir)
    (hty : K.type = "image")
    (hsvg : strToLower (extname K.path) ≠ ".svg")
    (hgif : strToLower (extname K.path) ≠ ".gif")
    (hftp : isFtpPath K.path = false)
    (habs : env.existsSync K.path = false)
    (hmiss : getCachedThumbnail env.md5 K.path K.modified
        (bulkRun env (pre ++ K :: post).length 0 pre st0
          (BulkResults.mk (pre ++ K :: post).length 0 0 0 [])).snd.snd = none) :
    (generateThumbnails env (pre ++ K :: post) st0).fst.getLast?
      = some (BulkEvent.complete (generateThumbnails env (pre ++ K :: post) st0).snd.fst) ∧
    (generateThumbnails env (pre ++ K :: post) st0).fst.filter isCompleteEvent
      = [BulkEvent.complete (generateThumbnails env (pre ++ K :: post) st0).snd.fst] ∧
    (generateThumbnails env (pre ++ K :: post) st0).snd.fst.total
      = (pre ++ K :: post).length ∧
    (K.name, "File not found") ∈ (generateThumbnails env (pre ++ K :: post) st0).snd.fst.errors ∧
    (generateThumbnails env (pre ++ K :: post) st0).snd.fst.generated
      + (generateThumbnails env (pre ++ K :: post) st0).snd.fst.cached
      + (generateThumbnails env (pre ++ K :: post) st0).snd.fst.skipped
      + (generateThumbnails env (pre ++ K :: post) st0).snd.fst.errors.length
      = (pre ++ K :: post).length := by
  have ha : (generateThumbnails env (pre ++ K :: post) st0).fst
      = (bulkRun env (pre ++ K :: post).length 0 (pre ++ K :: post) st0
          (BulkResults.mk (pre ++ K :: post).length 0 0 0 [])).fst
        ++ [BulkEvent.complete
            (bulkRun env (pre ++ K :: post).length 0 (pre ++ K :: post) st0
              (BulkResults.mk (pre ++ K :: post).length 0 0 0 [])).snd.fst] := rfl
  have hb : (generateThumbnails env (pre ++ K :: post) st0).snd.fst
      = (bulkRun env (pre ++ K :: post).length 0 (pre ++ K :: post) st0
          (BulkResults.mk (pre ++ K :: post).length 0 0 0 [])).snd.fst := rfl
  refine ⟨?_, ?_, ?_, ?_, ?_⟩
  · rw [ha, hb, List.getLast?_concat]
  · rw [ha, hb, List.filter_append]
    have h1 : ((bulkRun env (pre ++ K :: post).length 0 (pre ++ K :: post) st0
        (BulkResults.mk (pre ++ K :: post).length 0 0 0 [])).fst).filter isCompleteEvent
        = [] := by
      rw [List.filter_eq_nil_iff]
      intro ev hev
      rw [bulkRun_events_progress env (pre ++ K :: post).length (pre ++ K :: post)
        0 st0 (BulkResults.mk (pre ++ K :: post).length 0 0 0 []) ev hev]
      exact Bool.false_ne_true
    rw [h1]
    rfl
  · rw [hb, bulkRun_total]
  · rw [hb]
    have hsplit := bulkRun_append env (pre ++ K :: post).length pre (K :: post) 0 st0
      (BulkResults.mk (pre ++ K :: post).length 0 0 0 [])
    rw [hsplit]
    have hstep : bulkStep env (pre ++ K :: post).length (0 + pre.length) K
        (bulkRun env (pre ++ K :: post).length 0 pre st0
          (BulkResults.mk (pre ++ K :: post).length 0 0 0 [])).snd.snd
        (bulkRun env (pre ++ K :: post).length 0 pre st0
          (BulkResults.mk (pre ++ K :: post).length 0 0 0 [])).snd.fst
        = ((bulkRun env (pre ++ K :: post).length 0 pre st0
            (BulkResults.mk (pre ++ K :: post).length 0 0 0 [])).snd.snd,
           { (bulkRun env (pre ++ K :: post).length 0 pre st0
              (BulkResults.mk (pre ++ K :: post).length 0 0 0 [])).snd.fst with
             errors := (bulkRun env (pre ++ K :: post).length 0 pre st0
              (BulkResults.mk (pre ++ K :: post).length 0 0 0 [])).snd.fst.errors
               ++ [(K.name, "File not found")] },
           none) := by
      rw [bulkStep]
      dsimp only
      have h1 : (!(K.type == "image")) = false := by simp [hty]
      have h2 : (strToLower (extname K.path) == ".svg"
          || strToLower (extname K.path) == ".gif") = false := by simp [hsvg, hgif]
      rw [h1, h2]
      simp only [Bool.false_eq_true, if_false]
      rw [hmiss]
      dsimp only
      rw [show bulkFetch env K = Except.error "File not found" from by
        rw [bulkFetch]; simp [hftp, habs]]
    show (K.name, "File not found")
        ∈ (bulkRun env (pre ++ K :: post).length (0 + pre.length) (K :: post)
            (bulkRun env (pre ++ K :: post).length 0 pre st0
              (BulkResults.mk (pre ++ K :: post).length 0 0 0 [])).snd.snd
            (bulkRun env (pre ++ K :: post).length 0 pre st0
              (BulkResults.mk (pre ++ K :: post).length 0 0 0 [])).snd.fst).snd.fst.errors
    rw [bulkRun]
    dsimp only
    rw [hstep]
    dsimp only
    obtain ⟨t, ht⟩ := bulkRun_errors_extend env (pre ++ K :: post).length post
      (0 + pre.length + 1)
      (bulkRun env (pre ++ K :: post).length 0 pre st0
        (BulkResults.mk (pre ++ K :: post).length 0 0 0 [])).snd.snd
      { (bulkRun env (pre ++ K :: post).length 0 pre st0
          (BulkResults.mk (pre ++ K :: post).length 0 0 0 [])).snd.fst with
        errors := (bulkRun env (pre ++ K :: post).length 0 pre st0
          (BulkResults.mk (pre ++ K :: post).length 0 0 0 [])).snd.fst.errors
           ++ [(K.name, "File not found")] }
    rw [ht]
    exact List.mem_append_left _ (List.mem_append_right _ (List.mem_singleton.mpr rfl))
  · rw [hb]
    rw [bulkRun_count]
    simp

/-- Witness for C5: a one-element batch whose single image file does not
exist locally, in the all-failing environment, starting from an empty
cache. -/
theorem C5_bulk_job_terminal_summary_witness :
    getCachedThumbnail envAllMissing.md5 "k.png" 3
        (bulkRun envAllMissing ([] ++ FileRec.mk "k.png" "k.png" "image" 3 :: []).length 0 []
          []
          (BulkResults.mk ([] ++ FileRec.mk "k.png" "k.png" "image" 3 :: []).length
            0 0 0 [])).snd.snd = none ∧
    ((generateThumbnails envAllMissing
        ([] ++ FileRec.mk "k.png" "k.png" "image" 3 :: []) []).fst.getLast?
      = some (BulkEvent.complete (generateThumbnails envAllMissing
          ([] ++ FileRec.mk "k.png" "k.png" "image" 3 :: []) []).snd.fst) ∧
    (generateThumbnails envAllMissing
        ([] ++ FileRec.mk "k.png" "k.png" "image" 3 :: []) []).fst.filter isCompleteEvent
      = [BulkEvent.complete (generateThumbnails envAllMissing
          ([] ++ FileRec.mk "k.png" "k.png" "image" 3 :: []) []).snd.fst] ∧
    (generateThumbnails envAllMissing
        ([] ++ FileRec.mk "k.png" "k.png" "image" 3 :: []) []).snd.fst.total
      = ([] ++ FileRec.mk "k.png" "k.png" "image" 3 :: []).length ∧
    ((FileRec.mk "k.png" "k.png" "image" 3).name, "File not found")
      ∈ (generateThumbnails envAllMissing
          ([] ++ FileRec.mk "k.png" "k.png" "image" 3 :: []) []).snd.fst.errors ∧
    (generateThumbnails envAllMissing
        ([] ++ FileRec.mk "k.png" "k.png" "image" 3 :: []) []).snd.fst.generated
      + (generateThumbnails envAllMissing
          ([] ++ FileRec.mk "k.png" "k.png" "image" 3 :: []) []).snd.fst.cached
      + (generateThumbnails envAllMissing
          ([] ++ FileRec.mk "k.png" "k.png" "image" 3 :: []) []).snd.fst.skipped
      + (generateThumbnails envAllMissing
          ([] ++ FileRec.mk "k.png" "k.png" "image" 3 :: []) []).snd.fst.errors.length
      = ([] ++ FileRec.mk "k.png" "k.png" "image" 3 :: []).length) :=
  ⟨by decide,
   C5_bulk_job_terminal_summary envAllMissing [] [] (FileRec.mk "k.png" "k.png" "image" 3)
     [] rfl (by decide) (by decide) (by decide) rfl (by decide)⟩
